import Mathlib

/-!
Verification development for the iNaturalist downloader repository.

The Python sources `inaturalist_downloader.py` (unauthenticated pipeline) and
`inaturalist_downloader_auth.py` (authenticated pipeline) are shallowly
embedded below.  Network responses are supplied by explicit oracles (a list of
responses for per-image fetches, a page-indexed function for the observations
endpoint), the filesystem is an association list from path to modification
time, and JSON documents are a small inductive `J`.
-/

namespace INat

/-- Outcome of one HTTP request, as distinguished by the Python exception
handlers: success, an `HTTPError` with a status code, a timeout, a connection
error, or any other exception. -/
inductive Resp where
  | ok
  | http (code : ℕ)
  | timeout
  | connErr
  | other
deriving DecidableEq, Repr

/-- Filesystem model: association list from file path to modification time,
newest write first. -/
abbrev FS := List (String × ℤ)

/-- Look up the newest entry for a path. -/
def fsLookup : FS → String → Option ℤ
  | [], _ => none
  | (q, t) :: rest, p => if q = p then some t else fsLookup rest p

/-- `os.path.exists` on the model filesystem. -/
def fsHas (fs : FS) (p : String) : Bool := (fsLookup fs p).isSome

/-- Writing a file: the new entry shadows any older one. -/
def fsWrite (fs : FS) (p : String) (t : ℤ) : FS := (p, t) :: fs

/-- `os.path.join(output_dir, filename)`. -/
def joinPath (dir file : String) : String := dir ++ "/" ++ file

/-- `iNaturalistDownloader.download_image` (inaturalist_downloader.py,
lines 131-189), with the destination path precomputed.  The response oracle
`rs` lists the outcome of each successive HTTP request; `wtime` is the
modification time a fresh write receives.  Returns the optional result path,
the number of HTTP requests issued, and the final filesystem.  The existence
check is re-run on entry, as in the source, and the 429 / 5xx / timeout /
connection-error handlers re-invoke the function on the rest of the oracle,
exactly as the recursive self-call in the source does. -/
def download_image (fp : String) (wtime : ℤ) (fs : FS) : List Resp → Option String × ℕ × FS
  | [] =>
    if fsHas fs fp then (some fp, 0, fs) else (none, 0, fs)
  | r :: rest =>
    if fsHas fs fp then (some fp, 0, fs)
    else
      match r with
      | .ok => (some fp, 1, fsWrite fs fp wtime)
      | .http c =>
        if c = 404 then (none, 1, fs)
        else if c = 429 then
          let t := download_image fp wtime fs rest
          (t.1, t.2.1 + 1, t.2.2)
        else if 500 ≤ c then
          let t := download_image fp wtime fs rest
          (t.1, t.2.1 + 1, t.2.2)
        else (none, 1, fs)
      | .timeout =>
        let t := download_image fp wtime fs rest
        (t.1, t.2.1 + 1, t.2.2)
      | .connErr =>
        let t := download_image fp wtime fs rest
        (t.1, t.2.1 + 1, t.2.2)
      | .other => (none, 1, fs)

namespace Auth

/-- `iNaturalistAuthenticatedDownloader.download_image`
(inaturalist_downloader_auth.py, lines 164-191): a single request, no
existence check, no retry; any exception at all yields `None`; a successful
response writes the destination file unconditionally. -/
def download_image (fp : String) (wtime : ℤ) (fs : FS) (r : Resp) : Option String × ℕ × FS :=
  match r with
  | .ok => (some fp, 1, fsWrite fs fp wtime)
  | _ => (none, 1, fs)

end Auth

/-- JSON-like values, the shape of API observation records. -/
inductive J where
  | null
  | bool (b : Bool)
  | num (n : ℤ)
  | str (s : String)
  | arr (xs : List J)
  | obj (fields : List (String × J))

/-- First binding of a key in an object, if present. -/
def jFind : List (String × J) → String → Option J
  | [], _ => none
  | (k, v) :: rest, key => if k = key then some v else jFind rest key

/-- Python `dict.get(key)`: `None` when the key is absent. -/
def jGet (m : List (String × J)) (key : String) : J := (jFind m key).getD .null

/-- Python `dict.get(key, default)`. -/
def jGetD (m : List (String × J)) (key : String) (d : J) : J := (jFind m key).getD d

/-- Python truthiness of a JSON value. -/
def truthy : J → Bool
  | .null => false
  | .bool b => b
  | .num n => n != 0
  | .str s => !(s == "")
  | .arr xs => !xs.isEmpty
  | .obj m => !m.isEmpty

/-- `v.get(key)` on an arbitrary value: an `AttributeError` unless `v` is a
dict. -/
def vGet (v : J) (key : String) : Except String J :=
  match v with
  | .obj m => .ok (jGet m key)
  | _ => .error "AttributeError"

/-- `v.get(key, default)` on an arbitrary value. -/
def vGetD (v : J) (key : String) (d : J) : Except String J :=
  match v with
  | .obj m => .ok (jGetD m key d)
  | _ => .error "AttributeError"

/-- Iterating `for x in v`: the source iterates lists of records; iterating
any other truthy value leads to a `TypeError` or to an `AttributeError` on
the element, so the model surfaces an error for every non-list. -/
def asArr (v : J) : Except String (List J) :=
  match v with
  | .arr xs => .ok xs
  | _ => .error "TypeError"

/-- The `for`-loop appending one extracted record per element, propagating
the first raised exception. -/
def mapME (f : J → Except String J) : List J → Except String (List J)
  | [] => .ok []
  | x :: xs => do
    let y ← f x
    let ys ← mapME f xs
    return (y :: ys)

/-- The `'user'` sub-dictionary of the metadata literal
(inaturalist_downloader.py, lines 222-228), applied to the value of
`observation.get('user', {})`. -/
def extractUser (u : J) : Except String J := do
  let uid ← vGet u "id"
  let ulogin ← vGet u "login"
  let uname ← vGet u "name"
  let uobs ← vGet u "observations_count"
  let uspecies ← vGet u "species_count"
  return .obj [("id", uid), ("login", ulogin), ("name", uname),
    ("observations_count", uobs), ("species_count", uspecies)]

/-- The species block (lines 238-261), applied to `observation['taxon']`. -/
def extractTaxon (taxon : J) : Except String J := do
  let i ← vGet taxon "id"
  let nm ← vGet taxon "name"
  let pcn ← vGet taxon "preferred_common_name"
  let ecn ← vGet taxon "english_common_name"
  let rank ← vGet taxon "rank"
  let rankLevel ← vGet taxon "rank_level"
  let ancestry ← vGet taxon "ancestry"
  let isActive ← vGet taxon "is_active"
  let cs ← vGet taxon "conservation_status"
  let csn ← vGet taxon "conservation_status_name"
  let iti ← vGet taxon "iconic_taxon_id"
  let itn ← vGet taxon "iconic_taxon_name"
  let wiki ← vGet taxon "wikipedia_url"
  let extinct ← vGet taxon "extinct"
  let introduced ← vGet taxon "introduced"
  let native ← vGet taxon "native"
  let endemic ← vGet taxon "endemic"
  let threatened ← vGet taxon "threatened"
  let oc ← vGet taxon "observations_count"
  let dp ← vGet taxon "default_photo"
  return .obj [("id", i), ("name", nm), ("preferred_common_name", pcn),
    ("english_common_name", ecn), ("rank", rank), ("rank_level", rankLevel),
    ("ancestry", ancestry), ("is_active", isActive),
    ("conservation_status", cs), ("conservation_status_name", csn),
    ("iconic_taxon_id", iti), ("iconic_taxon_name", itn),
    ("wikipedia_url", wiki), ("extinct", extinct),
    ("introduced", introduced), ("native", native), ("endemic", endemic),
    ("threatened", threatened), ("observations_count", oc),
    ("default_photo", dp)]

/-- One `photo_info` record (lines 265-283). -/
def extractPhoto (photo : J) : Except String J := do
  let i ← vGet photo "id"
  let lc ← vGet photo "license_code"
  let url ← vGet photo "url"
  let ou ← vGet photo "original_url"
  let lu ← vGet photo "large_url"
  let mu ← vGet photo "medium_url"
  let su ← vGet photo "small_url"
  let qu ← vGet photo "square_url"
  let od ← vGet photo "original_dimensions"
  let attrib ← vGet photo "attribution"
  let npu ← vGet photo "native_page_url"
  let npi ← vGet photo "native_photo_id"
  let ty ← vGet photo "type"
  let flags ← vGetD photo "flags" (.arr [])
  let ma ← vGetD photo "moderator_actions" (.arr [])
  let hidden ← vGetD photo "hidden" (.bool false)
  return .obj [("id", i), ("license_code", lc), ("url", url),
    ("original_url", ou), ("large_url", lu), ("medium_url", mu),
    ("small_url", su), ("square_url", qu), ("original_dimensions", od),
    ("attribution", attrib), ("native_page_url", npu),
    ("native_photo_id", npi), ("type", ty), ("flags", flags),
    ("moderator_actions", ma), ("hidden", hidden)]

/-- One `ident_info` record (lines 288-303), with the nested
`ident.get('user', {}).get(...)` chain. -/
def extractIdent (ident : J) : Except String J := do
  let i ← vGet ident "id"
  let u ← vGetD ident "user" (.obj [])
  let uid ← vGet u "id"
  let ulogin ← vGet u "login"
  let uname ← vGet u "name"
  let ti ← vGet ident "taxon_id"
  let body ← vGet ident "body"
  let cat ← vGet ident "category"
  let cur ← vGet ident "current"
  let vision ← vGet ident "vision"
  let ca ← vGet ident "created_at"
  return .obj [("id", i),
    ("user", .obj [("id", uid), ("login", ulogin), ("name", uname)]),
    ("taxon_id", ti), ("body", body), ("category", cat), ("current", cur),
    ("vision", vision), ("created_at", ca)]

/-- The `species` block guarded by `if observation.get('taxon'):`
(lines 237-261): `None` stays when the taxon is absent or falsy. -/
def speciesPart (obs : List (String × J)) : Except String J :=
  if truthy (jGet obs "taxon") then extractTaxon (jGet obs "taxon")
  else pure J.null

/-- The `photos` loop guarded by `if observation.get('photos'):`
(lines 263-284). -/
def photosPart (obs : List (String × J)) : Except String (List J) :=
  if truthy (jGet obs "photos") then do
    let xs ← asArr (jGet obs "photos")
    mapME extractPhoto xs
  else pure []

/-- The `identifications` loop guarded by
`if observation.get('identifications'):` (lines 286-303). -/
def identsPart (obs : List (String × J)) : Except String (List J) :=
  if truthy (jGet obs "identifications") then do
    let xs ← asArr (jGet obs "identifications")
    mapME extractIdent xs
  else pure []

/-- `iNaturalistDownloader.extract_species_metadata`
(inaturalist_downloader.py, lines 191-305).  The result is the final content
of the mutated `metadata` dictionary; raising is modelled by `Except.error`.
A non-dict argument raises on its first `.get`. -/
def extract_species_metadata (observation : J) : Except String J :=
  match observation with
  | .obj obs => do
    let userObj ← extractUser (jGetD obs "user" (.obj []))
    let species ← speciesPart obs
    let photos ← photosPart obs
    let idents ← identsPart obs
    return .obj [("observation_id", jGet obs "id"),
      ("observed_on", jGet obs "observed_on"),
      ("time_observed_at", jGet obs "time_observed_at"),
      ("created_at", jGet obs "created_at"),
      ("updated_at", jGet obs "updated_at"),
      ("latitude", jGet obs "latitude"),
      ("longitude", jGet obs "longitude"),
      ("positional_accuracy", jGet obs "positional_accuracy"),
      ("public_positional_accuracy", jGet obs "public_positional_accuracy"),
      ("quality_grade", jGet obs "quality_grade"),
      ("num_identification_agreements", jGet obs "num_identification_agreements"),
      ("num_identification_disagreements", jGet obs "num_identification_disagreements"),
      ("captive_cultivated", jGet obs "captive_cultivated"),
      ("description", jGet obs "description"),
      ("place_guess", jGet obs "place_guess"),
      ("geoprivacy", jGet obs "geoprivacy"),
      ("obscured", jGet obs "obscured"),
      ("mappable", jGet obs "mappable"),
      ("license_code", jGet obs "license_code"),
      ("uri", jGet obs "uri"),
      ("user", userObj),
      ("photos", .arr photos),
      ("species", species),
      ("identifications", .arr idents),
      ("comments_count", jGet obs "comments_count"),
      ("faves_count", jGet obs "faves_count"),
      ("tags", jGetD obs "tags" (.arr []))]
  | _ => .error "AttributeError"

/-- Response of the observations endpoint to one page request: a JSON page
with a `results` list, or a `requests.exceptions.RequestException`. -/
inductive PageResp (α : Type) where
  | ok (results : List α)
  | err

/-- The `while True` pagination loop of `get_observations`
(inaturalist_downloader.py, lines 68-129).  `endpoint` maps a page number to
its response, `page` is the current page counter, and `fuel` bounds the
number of iterations (the source loop has no intrinsic bound).  Returns the
accumulated observations and the list of page numbers requested, in order. -/
def getObsAux (endpoint : ℕ → PageResp α) (perPage : ℕ) : ℕ → ℕ → List α × List ℕ
  | 0, _ => ([], [])
  | fuel + 1, page =>
    match endpoint page with
    | .err => ([], [page])
    | .ok results =>
      if results.length = 0 then ([], [page])
      else if results.length < perPage then (results, [page])
      else
        let t := getObsAux endpoint perPage fuel (page + 1)
        (results ++ t.1, page :: t.2)

/-- `get_observations`: pagination starts at page 1. -/
def get_observations (endpoint : ℕ → PageResp α) (perPage fuel : ℕ) : List α × List ℕ :=
  getObsAux endpoint perPage fuel 1

/-- Per-photo outcome, as counted by the unauthenticated `main`. -/
inductive Outcome where
  | downloaded
  | skipped
  | failed
deriving DecidableEq, Repr

/-- The per-photo classification of `main` (inaturalist_downloader.py,
lines 516-533): a successful attempt carries the current time and the
destination file's modification time and is counted as downloaded exactly
when `current_time - file_stat.st_mtime < 10`; a `None` result is counted as
failed. -/
def classify : Option (ℤ × ℤ) → Outcome
  | some (now, mtime) => if now - mtime < 10 then .downloaded else .skipped
  | none => .failed

/-- One step of the counter updates in `main`: exactly one of the three
counters is incremented per attempted photo. -/
def tally (acc : ℕ × ℕ × ℕ) (r : Option (ℤ × ℤ)) : ℕ × ℕ × ℕ :=
  match classify r with
  | .downloaded => (acc.1 + 1, acc.2.1, acc.2.2)
  | .skipped => (acc.1, acc.2.1 + 1, acc.2.2)
  | .failed => (acc.1, acc.2.1, acc.2.2 + 1)

/-- The run-level counters `(downloaded_count, skipped_count, failed_count)`
accumulated over every attempted photo of the run. -/
def runStats (rs : List (Option (ℤ × ℤ))) : ℕ × ℕ × ℕ :=
  rs.foldl tally (0, 0, 0)

/-- Floor of a rational, computed from its reduced fraction. -/
def qfloor (q : ℚ) : ℤ := Int.ediv q.num q.den

/-- Round half to even on the integers' midpoints, Python's `round(y)`. -/
def rhe (y : ℚ) : ℤ :=
  if y - qfloor y < 1 / 2 then qfloor y
  else if 1 / 2 < y - qfloor y then qfloor y + 1
  else if qfloor y % 2 = 0 then qfloor y else qfloor y + 1

/-- Python's `round(x, 1)` on exact values. -/
def pyRound1 (x : ℚ) : ℚ := (rhe (x * 10) : ℚ) / 10

/-- The `success_rate_percent` expression of the output metadata
(inaturalist_downloader.py, line 557). -/
def success_rate_percent (downloaded skipped failed : ℕ) : ℚ :=
  pyRound1 (if 0 < downloaded + skipped + failed then
      ((downloaded : ℚ) + skipped) / (((downloaded : ℚ) + skipped) + failed) * 100
    else 0)

/-- The per-tier URL fields of one photo record, as read by the authenticated
`main`; `none` models an absent or `null` field. -/
structure PhotoUrls where
  original_url : Option String
  large_url : Option String
  medium_url : Option String
  small_url : Option String
  url : Option String

/-- Python's `a or b` on optional strings: `a` unless it is absent, `None`,
or the empty string. -/
def pyOr (a b : Option String) : Option String :=
  match a with
  | some s => if s = "" then b else some s
  | none => b

/-- The direct-URL selection for quality preference `small`
(inaturalist_downloader_auth.py, line 510):
`photo.get('small_url') or photo.get('medium_url') or photo.get('large_url')
or photo.get('original_url') or photo.get('url')`. -/
def image_url_small (p : PhotoUrls) : Option String :=
  pyOr p.small_url (pyOr p.medium_url (pyOr p.large_url (pyOr p.original_url p.url)))

/-- The present (non-absent, non-empty) URLs of the given fields, in order:
the candidate list the spec describes for direct-URL mode. -/
def presentChain (fields : List (Option String)) : List String :=
  (fields.filterMap id).filter (fun s => !(s == ""))

/-- Modelled from the spec: the spec's candidate order for preference
`small` in direct-URL mode — small, medium, large, original, then the bare
`url`, skipping absent tiers. -/
def directCandidatesSmall (p : PhotoUrls) : List String :=
  presentChain [p.small_url, p.medium_url, p.large_url, p.original_url, p.url]

/-- The storage-bucket base URL for a photo id (inaturalist_downloader.py,
line 457). -/
def photoBaseUrl (photoId : ℤ) : String :=
  "https://inaturalist-open-data.s3.amazonaws.com/photos/" ++ toString photoId

/-- The fallback quality list for preference `small` in unauthenticated
template mode (inaturalist_downloader.py, line 503). -/
def smallFallbackQualities : List String :=
  ["small", "medium", "large", "original", "square"]

/-- `f"{base_url}/{quality}.jpg"`. -/
def fallbackUrl (baseUrl quality : String) : String :=
  baseUrl ++ "/" ++ quality ++ ".jpg"

/-- The templated candidate URLs tried, in order, for preference `small` in
unauthenticated mode (lines 503-507). -/
def templateCandidatesSmall (photoId : ℤ) : List String :=
  smallFallbackQualities.map (fallbackUrl (photoBaseUrl photoId))

/-- Success test for a modelled Python call. -/
def exOk : Except String J → Bool
  | .ok _ => true
  | .error _ => false

/-- Dict test, Python `isinstance(v, dict)` as relevant to `.get` calls. -/
def isObjB : J → Bool
  | .obj _ => true
  | _ => false

/-- List-of test. -/
def arrAll (p : J → Bool) : J → Bool
  | .arr xs => xs.all p
  | _ => false

/-- One identification entry navigable without raising: a dict whose `user`
field, when present, is a dict. -/
def identOk : J → Bool
  | .obj m => isObjB (jGetD m "user" (.obj []))
  | _ => false

/-- An observation record all of whose structurally navigated fields have
the shapes the extractor's `.get` chains and loops require. -/
def wellShaped : J → Bool
  | .obj m =>
    isObjB (jGetD m "user" (.obj [])) &&
    (!truthy (jGet m "taxon") || isObjB (jGet m "taxon")) &&
    (!truthy (jGet m "photos") || arrAll isObjB (jGet m "photos")) &&
    (!truthy (jGet m "identifications") || arrAll identOk (jGet m "identifications"))
  | _ => false

end INat

namespace INat

theorem ok_bind (a : α) (f : α → Except ε β) : (Except.ok a : Except ε α) >>= f = f a := rfl

theorem error_bind (e : ε) (f : α → Except ε β) :
    (Except.error e : Except ε α) >>= f = .error e := rfl

theorem pure_ok (a : α) : (pure a : Except ε α) = .ok a := rfl

theorem extractUser_obj (m : List (String × J)) : exOk (extractUser (.obj m)) = true := rfl

theorem extractTaxon_obj (m : List (String × J)) : exOk (extractTaxon (.obj m)) = true := rfl

theorem extractPhoto_obj (m : List (String × J)) : exOk (extractPhoto (.obj m)) = true := rfl

theorem obj_of_isObjB {v : J} (h : isObjB v = true) : ∃ m, v = J.obj m := by
  cases v <;> simp [isObjB] at h ⊢

theorem extractIdent_obj (m : List (String × J))
    (h : isObjB (jGetD m "user" (.obj [])) = true) :
    exOk (extractIdent (.obj m)) = true := by
  obtain ⟨um, hu⟩ := obj_of_isObjB h
  unfold extractIdent
  simp only [vGet, vGetD, ok_bind]
  rw [hu]
  simp [vGet, ok_bind, exOk]

theorem mapME_all_ok (f : J → Except String J) :
    ∀ xs : List J, (∀ x ∈ xs, exOk (f x) = true) → ∃ ys, mapME f xs = .ok ys := by
  intro xs
  induction xs with
  | nil => exact fun _ => ⟨[], rfl⟩
  | cons x l ih =>
    intro h
    have hx := h x (List.mem_cons_self x l)
    cases hfx : f x with
    | error e => rw [hfx] at hx; simp [exOk] at hx
    | ok y =>
      obtain ⟨ys, hys⟩ := ih (fun z hz => h z (List.mem_cons_of_mem x hz))
      exact ⟨y :: ys, by simp [mapME, hfx, hys, ok_bind]⟩

theorem extract_ok_of_wellShaped :
    ∀ obs, wellShaped obs = true → exOk (extract_species_metadata obs) = true := by
  intro obs h
  cases obs with
  | null => simp [wellShaped] at h
  | bool b => simp [wellShaped] at h
  | num n => simp [wellShaped] at h
  | str s => simp [wellShaped] at h
  | arr xs => simp [wellShaped] at h
  | obj m =>
    simp only [wellShaped, Bool.and_eq_true] at h
    obtain ⟨⟨⟨h1, h2⟩, h3⟩, h4⟩ := h
    obtain ⟨um, hu⟩ := obj_of_isObjB h1
    simp only [extract_species_metadata]
    rw [hu]
    simp only [extractUser, vGet, ok_bind]
    have hspecies : ∃ sv, speciesPart m = .ok sv := by
      unfold speciesPart
      by_cases ht : truthy (jGet m "taxon") = true
      · rw [if_pos ht]
        rw [ht] at h2
        simp only [Bool.not_true, Bool.false_or] at h2
        obtain ⟨tm, htm⟩ := obj_of_isObjB h2
        rw [htm]
        exact ⟨_, rfl⟩
      · rw [if_neg ht]
        exact ⟨_, rfl⟩
    obtain ⟨sv, hsv⟩ := hspecies
    rw [hsv]
    simp only [ok_bind]
    have hphotos : ∃ pv, photosPart m = .ok pv := by
      unfold photosPart
      by_cases hp : truthy (jGet m "photos") = true
      · rw [if_pos hp]
        rw [hp] at h3
        simp only [Bool.not_true, Bool.false_or] at h3
        cases hpv : jGet m "photos" with
        | arr xs =>
          rw [hpv] at h3
          simp only [arrAll, List.all_eq_true] at h3
          have hall : ∀ x ∈ xs, exOk (extractPhoto x) = true := by
            intro x hx
            obtain ⟨pm, hpm⟩ := obj_of_isObjB (h3 x hx)
            rw [hpm]
            exact extractPhoto_obj pm
          obtain ⟨ys, hys⟩ := mapME_all_ok extractPhoto xs hall
          exact ⟨ys, by simp [asArr, hys, ok_bind]⟩
        | null => rw [hpv] at h3; simp [arrAll] at h3
        | bool b => rw [hpv] at h3; simp [arrAll] at h3
        | num n => rw [hpv] at h3; simp [arrAll] at h3
        | str s => rw [hpv] at h3; simp [arrAll] at h3
        | obj mm => rw [hpv] at h3; simp [arrAll] at h3
      · rw [if_neg hp]
        exact ⟨_, rfl⟩
    obtain ⟨pv, hpv⟩ := hphotos
    rw [hpv]
    simp only [ok_bind]
    have hidents : ∃ iv, identsPart m = .ok iv := by
      unfold identsPart
      by_cases hi : truthy (jGet m "identifications") = true
      · rw [if_pos hi]
        rw [hi] at h4
        simp only [Bool.not_true, Bool.false_or] at h4
        cases hiv : jGet m "identifications" with
        | arr xs =>
          rw [hiv] at h4
          simp only [arrAll, List.all_eq_true] at h4
          have hall : ∀ x ∈ xs, exOk (extractIdent x) = true := by
            intro x hx
            have hok := h4 x hx
            cases x with
            | obj im => exact extractIdent_obj im (by simpa [identOk] using hok)
            | null => simp [identOk] at hok
            | bool b => simp [identOk] at hok
            | num n => simp [identOk] at hok
            | str s => simp [identOk] at hok
            | arr ys => simp [identOk] at hok
          obtain ⟨ys, hys⟩ := mapME_all_ok extractIdent xs hall
          exact ⟨ys, by simp [asArr, hys, ok_bind]⟩
        | null => rw [hiv] at h4; simp [arrAll] at h4
        | bool b => rw [hiv] at h4; simp [arrAll] at h4
        | num n => rw [hiv] at h4; simp [arrAll] at h4
        | str s => rw [hiv] at h4; simp [arrAll] at h4
        | obj mm => rw [hiv] at h4; simp [arrAll] at h4
      · rw [if_neg hi]
        exact ⟨_, rfl⟩
    obtain ⟨iv, hiv⟩ := hidents
    rw [hiv]
    simp [ok_bind, exOk]

theorem tally_sum (rs : List (Option (ℤ × ℤ))) :
    ∀ acc : ℕ × ℕ × ℕ,
      (rs.foldl tally acc).1 + (rs.foldl tally acc).2.1 + (rs.foldl tally acc).2.2 =
        acc.1 + acc.2.1 + acc.2.2 + rs.length := by
  induction rs with
  | nil => intro acc; simp
  | cons r rs ih =>
    intro acc
    rw [List.foldl_cons, ih]
    unfold tally
    cases classify r <;> simp <;> omega

theorem download_image_success_has (fp : String) (wtime : ℤ) :
    ∀ (rs : List Resp) (fs : FS) (p : String),
      (download_image fp wtime fs rs).1 = some p →
      p = fp ∧ fsHas (download_image fp wtime fs rs).2.2 fp = true := by
  intro rs
  induction rs with
  | nil =>
    intro fs p h
    by_cases hb : fsHas fs fp = true <;> simp [download_image, hb] at h ⊢
    simp_all
  | cons r rest ih =>
    intro fs p h
    by_cases hb : fsHas fs fp = true
    · simp [download_image, hb] at h ⊢; simp_all
    · cases r with
      | ok =>
        simp [download_image, hb] at h ⊢
        simp_all [fsHas, fsWrite, fsLookup]
      | http c =>
        by_cases h404 : c = 404
        · simp [download_image, hb, h404] at h
        · by_cases h429 : c = 429
          · simp [download_image, hb, h404, h429] at h ⊢
            exact ih fs p h
          · by_cases h5xx : 500 ≤ c
            · simp [download_image, hb, h404, h429, h5xx] at h ⊢
              exact ih fs p h
            · simp [download_image, hb, h404, h429, h5xx] at h
      | timeout =>
        simp [download_image, hb] at h ⊢
        exact ih fs p h
      | connErr =>
        simp [download_image, hb] at h ⊢
        exact ih fs p h
      | other => simp [download_image, hb] at h

/-- C1: the spec's one-retry cap fails on the code.  The `# Retry once`
comments notwithstanding, the recursive self-call in `download_image` has no
attempt counter, so two consecutive 429 responses do not surface as a
failure: a third request is issued (and here succeeds).  The same happens
for the timeout handler.  The claim (and the code's own comments) say the
second transient failure must be the last attempt. -/
theorem download_image_unbounded_retry :
    download_image "images/obs_1_photo_0.jpg" 0 [] [.http 429, .http 429, .ok] =
      (some "images/obs_1_photo_0.jpg", 3, [("images/obs_1_photo_0.jpg", 0)]) ∧
    download_image "images/obs_1_photo_0.jpg" 0 [] [.timeout, .timeout, .ok] =
      (some "images/obs_1_photo_0.jpg", 3, [("images/obs_1_photo_0.jpg", 0)]) :=
  ⟨by decide, by decide⟩

/-- C3: every attempted photo yields exactly one outcome, and the final
counters conserve the number of attempts: `downloaded + skipped + failed`
equals the number of per-photo attempts folded into `runStats`. -/
theorem runStats_conserves_attempts (rs : List (Option (ℤ × ℤ))) :
    (runStats rs).1 + (runStats rs).2.1 + (runStats rs).2.2 = rs.length := by
  unfold runStats
  rw [tally_sum]
  simp

/-- C4: an image fetch whose destination file exists is skipped entirely —
the path is returned, zero requests are issued and the filesystem (hence the
existing file) is untouched; and after any successful fetch, re-running the
same fetch against the resulting filesystem issues zero requests and returns
the same path, leaving the filesystem unchanged. -/
theorem download_image_idempotent :
    (∀ (fp : String) (wtime : ℤ) (fs : FS) (rs : List Resp) (m : ℤ),
        fsLookup fs fp = some m →
        download_image fp wtime fs rs = (some fp, 0, fs)) ∧
    (∀ (fp : String) (wtime wtime2 : ℤ) (fs : FS) (rs rs2 : List Resp) (p : String),
        (download_image fp wtime fs rs).1 = some p →
        download_image fp wtime2 (download_image fp wtime fs rs).2.2 rs2 =
          (some p, 0, (download_image fp wtime fs rs).2.2)) := by
  constructor
  · intro fp wtime fs rs m h
    have hb : fsHas fs fp = true := by simp [fsHas, h]
    cases rs <;> simp [download_image, hb]
  · intro fp wtime wtime2 fs rs rs2 p h
    obtain ⟨rfl, hb⟩ := download_image_success_has fp wtime rs fs p h
    cases rs2 <;> simp [download_image, hb]

/-- Witness for C4 at a concrete pre-existing file. -/
theorem download_image_idempotent_witness :
    fsLookup [("img/a.jpg", 4)] "img/a.jpg" = some 4 ∧
    download_image "img/a.jpg" 9 [("img/a.jpg", 4)] [.ok] =
      (some "img/a.jpg", 0, [("img/a.jpg", 4)]) :=
  ⟨by decide, download_image_idempotent.1 "img/a.jpg" 9 [("img/a.jpg", 4)] [.ok] 4 (by decide)⟩

/-- C9: a successful attempt is classified by the 10-second modification-time
window, not by whether a transfer occurred: a destination file that already
exists (so the fetch issues zero requests) but whose modification time is
within 10 seconds of the check is counted as downloaded, not skipped. -/
theorem classify_by_mtime_window :
    ∀ (fp : String) (wtime now m : ℤ) (fs : FS) (rs : List Resp),
      fsLookup fs fp = some m → now - m < 10 →
      (download_image fp wtime fs rs).2.1 = 0 ∧
      (download_image fp wtime fs rs).1 = some fp ∧
      classify (some (now, m)) = Outcome.downloaded := by
  intro fp wtime now m fs rs h hlt
  have hb : fsHas fs fp = true := by simp [fsHas, h]
  refine ⟨?_, ?_, ?_⟩
  · cases rs <;> simp [download_image, hb]
  · cases rs <;> simp [download_image, hb]
  · simp [classify, hlt]

/-- Witness for C9: a file written 5 seconds ago is re-classified as a fresh
download even though no request was issued. -/
theorem classify_by_mtime_window_witness :
    fsLookup [("x", 0)] "x" = some 0 ∧ (5 : ℤ) - 0 < 10 ∧
    (download_image "x" 0 [("x", 0)] [.http 404]).2.1 = 0 ∧
    classify (some (5, 0)) = Outcome.downloaded :=
  ⟨by decide, by decide,
    (classify_by_mtime_window "x" 0 5 0 [("x", 0)] [.http 404] (by decide) (by decide)).1,
    (classify_by_mtime_window "x" 0 5 0 [("x", 0)] [.http 404] (by decide) (by decide)).2.2⟩

/-- C10: the authenticated `download_image` issues exactly one request for
every call, returns `None` on every exception class with no retry, consults
the filesystem in no way (no existence check), and on success writes the
destination file unconditionally, overwriting any existing entry. -/
theorem auth_download_single_attempt :
    ∀ (fp : String) (wtime : ℤ) (fs : FS) (r : Resp),
      (Auth.download_image fp wtime fs r).2.1 = 1 ∧
      (r ≠ .ok → Auth.download_image fp wtime fs r = (none, 1, fs)) ∧
      (Auth.download_image fp wtime fs r).1 = (Auth.download_image fp wtime [] r).1 ∧
      (r = .ok → fsLookup (Auth.download_image fp wtime fs r).2.2 fp = some wtime) := by
  intro fp wtime fs r
  cases r <;> simp [Auth.download_image, fsWrite, fsLookup]

/-- Witness for C10: a 429 on an authenticated fetch is a one-shot failure
even when the destination file already exists. -/
theorem auth_download_single_attempt_witness :
    Resp.http 429 ≠ Resp.ok ∧
    Auth.download_image "a" 7 [("a", 0)] (.http 429) = (none, 1, [("a", 0)]) :=
  ⟨by decide, (auth_download_single_attempt "a" 7 [("a", 0)] (.http 429)).2.1 (by decide)⟩

/-- C6: the summary's success rate is
`(downloaded+skipped)/(downloaded+skipped+failed)*100` rounded to one
decimal when at least one attempt was made, and `0` with no division when no
attempt was made; in particular `(7, 2, 1)` gives `90.0` and `(0, 0, 0)`
gives `0`. -/
theorem success_rate_spec :
    (∀ d s f : ℕ, 0 < d + s + f →
        success_rate_percent d s f =
          pyRound1 (((d : ℚ) + s) / (((d : ℚ) + s) + f) * 100)) ∧
    success_rate_percent 0 0 0 = 0 ∧
    success_rate_percent 7 2 1 = 90 := by
  refine ⟨fun d s f h => ?_, ?_, ?_⟩
  · unfold success_rate_percent
    rw [if_pos h]
  · norm_num [success_rate_percent, pyRound1, rhe, qfloor]
  · norm_num [success_rate_percent, pyRound1, rhe, qfloor]

/-- Witness for C6 at one attempted photo. -/
theorem success_rate_spec_witness :
    0 < 1 + 0 + 0 ∧
    success_rate_percent 1 0 0 =
      pyRound1 ((((1 : ℕ) : ℚ) + ((0 : ℕ) : ℚ)) /
        ((((1 : ℕ) : ℚ) + ((0 : ℕ) : ℚ)) + ((0 : ℕ) : ℚ)) * 100) :=
  ⟨by decide, success_rate_spec.1 1 0 0 (by decide)⟩

/-- C2: on a mock endpoint whose pages 1, 2, 3 have 200, 200 and 150 results
at page size 200, pagination starts at page 1, requests exactly the
consecutive pages 1, 2, 3 (no page is requested after the terminal short
page), and returns all 550 records. -/
theorem pagination_three_pages :
    ∀ (endpoint : ℕ → PageResp ℕ) (p1 p2 p3 : List ℕ) (fuel : ℕ),
      endpoint 1 = .ok p1 → p1.length = 200 →
      endpoint 2 = .ok p2 → p2.length = 200 →
      endpoint 3 = .ok p3 → p3.length = 150 →
      3 ≤ fuel →
      get_observations endpoint 200 fuel = (p1 ++ (p2 ++ p3), [1, 2, 3]) ∧
      (p1 ++ (p2 ++ p3)).length = 550 := by
  intro endpoint p1 p2 p3 fuel h1 hl1 h2 hl2 h3 hl3 hfuel
  obtain ⟨k, rfl⟩ : ∃ k, fuel = k + 1 + 1 + 1 := ⟨fuel - 3, by omega⟩
  constructor
  · show getObsAux endpoint 200 (k + 1 + 1 + 1) 1 = _
    simp [getObsAux, h1, h2, h3, hl1, hl2, hl3]
  · simp [hl1, hl2, hl3]

/-- Witness for C2 on an explicit mock endpoint. -/
theorem pagination_three_pages_witness :
    get_observations
        (fun n =>
          if n = 1 then PageResp.ok (List.replicate 200 0)
          else if n = 2 then PageResp.ok (List.replicate 200 0)
          else if n = 3 then PageResp.ok (List.replicate 150 0)
          else PageResp.err)
        200 3 =
      (List.replicate 200 0 ++ (List.replicate 200 0 ++ List.replicate 150 0), [1, 2, 3]) ∧
    (List.replicate 200 (0 : ℕ) ++ (List.replicate 200 0 ++ List.replicate 150 0)).length = 550 :=
  pagination_three_pages _ _ _ _ 3 rfl (List.length_replicate 200 0) rfl
    (List.length_replicate 200 0) rfl (List.length_replicate 150 0) (by decide)

theorem map_range_succ_shift (a n : ℕ) :
    (List.range (n + 1)).map (a + ·) = a :: (List.range n).map (a + 1 + ·) := by
  rw [List.range_succ_eq_map, List.map_cons, List.map_map]
  have h : ((a + ·) ∘ Nat.succ) = (a + 1 + ·) :=
    funext fun k => by simp only [Function.comp_apply]; omega
  simp [h]

theorem getObsAux_err_run (endpoint : ℕ → PageResp ℕ) (perPage : ℕ) (hpp : 0 < perPage) :
    ∀ (rs : List (List ℕ)) (page fuel : ℕ), rs.length < fuel →
      (∀ k (hk : k < rs.length),
        endpoint (page + k) = .ok (rs.get ⟨k, hk⟩) ∧ (rs.get ⟨k, hk⟩).length = perPage) →
      endpoint (page + rs.length) = .err →
      getObsAux endpoint perPage fuel page =
        (rs.flatten, (List.range (rs.length + 1)).map (page + ·)) := by
  intro rs
  induction rs with
  | nil =>
    intro page fuel hf hfull herr
    obtain ⟨f, rfl⟩ : ∃ f, fuel = f + 1 := ⟨fuel - 1, by omega⟩
    simp only [List.length_nil, Nat.add_zero] at herr
    simp [getObsAux, herr, List.range_succ]
  | cons r rs ih =>
    intro page fuel hf hfull herr
    obtain ⟨f, rfl⟩ : ∃ f, fuel = f + 1 := ⟨fuel - 1, by omega⟩
    obtain ⟨h0, hlen⟩ := hfull 0 (by simp)
    simp only [Nat.add_zero, List.get] at h0 hlen
    have hrec := ih (page + 1) f (by simp at hf; omega)
      (fun k hk => by
        obtain ⟨ha, hb⟩ := hfull (k + 1) (by simp; omega)
        constructor
        · have : page + (k + 1) = page + 1 + k := by omega
          rw [this] at ha
          exact ha
        · exact hb)
      (by
        have : page + (r :: rs).length = page + 1 + rs.length := by simp; omega
        rw [this] at herr
        exact herr)
    simp only [getObsAux, h0]
    have hne : ¬ r.length = 0 := by omega
    have hnlt : ¬ r.length < perPage := by omega
    simp only [hne, if_false, hnlt, hrec]
    simp [map_range_succ_shift page (rs.length + 1)]

/-- C7: a network-level error while fetching an observations page is never
retried — pagination stops at the failing request and returns exactly the
records accumulated from the pages fetched before the failure.  Here pages
1..n succeed with full pages `rs` and page n+1 raises: the result is the
concatenation of `rs` and the request log is exactly pages 1..n+1. -/
theorem page_error_aborts :
    ∀ (endpoint : ℕ → PageResp ℕ) (perPage fuel : ℕ) (rs : List (List ℕ)),
      0 < perPage → rs.length < fuel →
      (∀ k (hk : k < rs.length),
        endpoint (1 + k) = .ok (rs.get ⟨k, hk⟩) ∧ (rs.get ⟨k, hk⟩).length = perPage) →
      endpoint (1 + rs.length) = .err →
      get_observations endpoint perPage fuel =
        (rs.flatten, (List.range (rs.length + 1)).map (1 + ·)) :=
  fun endpoint perPage fuel rs hpp hf hfull herr =>
    getObsAux_err_run endpoint perPage hpp rs 1 fuel hf hfull herr

/-- Witness for C7: one full page then an error returns that page's records
after exactly two requests. -/
theorem page_error_aborts_witness :
    get_observations (fun n => if n = 1 then PageResp.ok [7, 8] else PageResp.err) 2 5 =
      ([7, 8], [1, 2]) := by
  have h := page_error_aborts (fun n => if n = 1 then PageResp.ok [7, 8] else PageResp.err)
    2 5 [[7, 8]] (by decide) (by decide)
    (fun k hk => by
      rcases k with _ | k
      · exact ⟨rfl, rfl⟩
      · simp at hk)
    rfl
  simpa using h

theorem chain_head (fields : List (Option String)) (u : Option String)
    (hf : some "" ∉ fields) (hu : u ≠ some "") :
    fields.foldr pyOr u = (presentChain (fields ++ [u])).head? := by
  induction fields with
  | nil =>
    cases u with
    | none => simp [presentChain]
    | some s =>
      cases hb : s == "" with
      | true =>
        have hse : s = "" := by simpa using hb
        exact absurd hse (fun hh => hu (by rw [hh]))
      | false => simp [presentChain, List.filter, hb]
  | cons a l ih =>
    have ha : a ∉ ({some ""} : Set (Option String)) := by
      intro hh; exact hf (by simp_all)
    have hl : some "" ∉ l := fun hh => hf (List.mem_cons_of_mem a hh)
    cases a with
    | none => simpa [presentChain, pyOr] using ih hl
    | some s =>
      have hs : ¬ s = "" := by
        intro hh; exact ha (by simp [hh])
      cases hb : s == "" with
      | true => exact absurd (by simpa using hb) hs
      | false =>
        simp only [List.foldr_cons, pyOr, if_neg hs]
        simp [presentChain, List.filter, hb]

/-- C8: for quality preference `small`, the direct-URL chain tries small,
medium, large, original, then the bare `url`, skipping absent (or falsy)
tiers — the selected URL is the head of that candidate order — with all four
tiers present the order is exactly small, medium, large, original, url; and
in unauthenticated template mode the candidate URLs are exactly the five
templated tiers small, medium, large, original, square in that order. -/
theorem small_quality_candidates :
    (∀ p : PhotoUrls,
        some "" ∉ [p.small_url, p.medium_url, p.large_url, p.original_url, p.url] →
        image_url_small p = (directCandidatesSmall p).head?) ∧
    (∀ s m l o u : String, s ≠ "" → m ≠ "" → l ≠ "" → o ≠ "" → u ≠ "" →
        directCandidatesSmall ⟨some o, some l, some m, some s, some u⟩ = [s, m, l, o, u] ∧
        image_url_small ⟨some o, some l, some m, some s, some u⟩ = some s) ∧
    templateCandidatesSmall 12345 =
      ["https://inaturalist-open-data.s3.amazonaws.com/photos/12345/small.jpg",
       "https://inaturalist-open-data.s3.amazonaws.com/photos/12345/medium.jpg",
       "https://inaturalist-open-data.s3.amazonaws.com/photos/12345/large.jpg",
       "https://inaturalist-open-data.s3.amazonaws.com/photos/12345/original.jpg",
       "https://inaturalist-open-data.s3.amazonaws.com/photos/12345/square.jpg"] := by
  refine ⟨?_, ?_, ?_⟩
  · intro p h
    have hu : p.url ≠ some "" := by
      intro hh; exact h (by simp [hh])
    have hf : some "" ∉ [p.small_url, p.medium_url, p.large_url, p.original_url] := by
      intro hm
      apply h
      simp only [List.mem_cons, List.mem_singleton] at hm ⊢
      tauto
    exact chain_head [p.small_url, p.medium_url, p.large_url, p.original_url] p.url hf hu
  · intro s m l o u hs hm hl ho hu
    constructor
    · simp [directCandidatesSmall, presentChain, hs, hm, hl, ho, hu]
    · simp [image_url_small, pyOr, hs]
  · rfl

/-- Witness for C8 on concrete URLs. -/
theorem small_quality_candidates_witness :
    some "" ∉ [some "s", some "m", some "l", some "o", some "u"] ∧
    image_url_small ⟨some "o", some "l", some "m", some "s", some "u"⟩ =
      (directCandidatesSmall ⟨some "o", some "l", some "m", some "s", some "u"⟩).head? :=
  ⟨by decide,
    small_quality_candidates.1 ⟨some "o", some "l", some "m", some "s", some "u"⟩ (by decide)⟩

/-- C5 counterexample: the normalizer is not total.  An observation whose
`user` field is present but `null` makes
`observation.get('user', {}).get('id')` raise an `AttributeError`, because
`dict.get` returns the stored `None`, not the `{}` default. -/
theorem extract_raises_on_null_user :
    extract_species_metadata (.obj [("user", J.null)]) = .error "AttributeError" := rfl

/-- C5 (amended): normalization never raises on observations whose
structurally navigated fields are well-shaped — the `user` field (top-level
and inside each identification entry) absent or a dict, and `taxon`,
`photos` and `identifications`, when truthy, a dict resp. lists of dicts —
and every missing field maps to `null` (or the empty-collection default) in
the output, as on the empty observation record. -/
theorem extract_total_on_wellShaped :
    (∀ obs, wellShaped obs = true → exOk (extract_species_metadata obs) = true) ∧
    extract_species_metadata (.obj []) = .ok (.obj
      [("observation_id", .null), ("observed_on", .null), ("time_observed_at", .null),
       ("created_at", .null), ("updated_at", .null), ("latitude", .null),
       ("longitude", .null), ("positional_accuracy", .null),
       ("public_positional_accuracy", .null), ("quality_grade", .null),
       ("num_identification_agreements", .null),
       ("num_identification_disagreements", .null), ("captive_cultivated", .null),
       ("description", .null), ("place_guess", .null), ("geoprivacy", .null),
       ("obscured", .null), ("mappable", .null), ("license_code", .null),
       ("uri", .null),
       ("user", .obj [("id", .null), ("login", .null), ("name", .null),
         ("observations_count", .null), ("species_count", .null)]),
       ("photos", .arr []), ("species", .null), ("identifications", .arr []),
       ("comments_count", .null), ("faves_count", .null), ("tags", .arr [])]) :=
  ⟨extract_ok_of_wellShaped, rfl⟩

/-- Witness for C5 (amended) on a minimal well-shaped record. -/
theorem extract_total_on_wellShaped_witness :
    wellShaped (.obj [("id", J.num 3)]) = true ∧
    exOk (extract_species_metadata (.obj [("id", J.num 3)])) = true :=
  ⟨rfl, extract_total_on_wellShaped.1 (.obj [("id", J.num 3)]) rfl⟩

end INat
